import Mathlib

/-!
Verification of the inventory-service core (services/inventory-service/src):
the ledger of `InventoryItem` rows, the reserve / release / adjust storage
operations from `db.rs`, the Redis-backed read cache and the HTTP handlers
from `handlers.rs`, and the low-stock alert query.

Modelling conventions.
* The Postgres `inventory` table is a `List InventoryItem`; the UNIQUE
  constraint on `sku` is the predicate `skuNodup`, and the table CHECK
  constraints `positive_quantity` and `valid_reserved` (db.rs,
  `run_migrations`) are the predicate `validRow`.
* A SQL UPDATE is `updateWhere`: it rewrites every row matching the WHERE
  condition and reports the affected-row count; Postgres aborts the
  statement (and hence the enclosing transaction) when an updated row would
  violate a CHECK constraint, modelled by the `constraintViolation` error.
  Rust i32 columns are unbounded `Int` here: Postgres INTEGER arithmetic
  raises an error instead of wrapping, and no claim below exercises values
  near 2^31, so the clamped-domain behaviour is fully captured by the CHECK
  model.
* A failed operation returns `Except.error`; the transaction rolls back, so
  the caller keeps the pre-state (made explicit by `applyOp`).
* The db-layer failures are distinguished by the distinct `anyhow!` message
  constructors in `db.rs` ("SKU not found: ...", "Insufficient stock.
  Available: ..., Requested: ...", "Failed to release stock. ...") plus the
  sqlx error raised on a CHECK violation; they form `DbError`.
* The Redis cache is an association list from cache key to the cached
  record; the key `inventory:{sku}` is injective in the sku, so the sku
  itself is used as the key.  UUIDs and timestamps are generated
  side-effectfully and play no role in any claim, so `InventoryItem` and
  `ReservationResponse` keep only the fields the claims mention.
-/

namespace Inventory

/-- One row of the `inventory` table (models.rs `InventoryItem`, minus the
generated `id` and the timestamp columns, which no claim depends on). -/
structure InventoryItem where
  sku : String
  name : String
  quantity : Int
  reserved : Int
  warehouse : String
  low_stock_threshold : Int
  deriving DecidableEq

/-- `available()` from models.rs: `quantity - reserved`. -/
def InventoryItem.available (r : InventoryItem) : Int :=
  r.quantity - r.reserved

/-- The row-level CHECK constraints declared in `run_migrations` (db.rs):
`positive_quantity` (`quantity >= 0`) and `valid_reserved`
(`reserved >= 0 AND reserved <= quantity`). -/
def validRow (r : InventoryItem) : Bool :=
  decide (0 ≤ r.quantity) && decide (0 ≤ r.reserved) &&
    decide (r.reserved ≤ r.quantity)

/-- All rows of the table satisfy the CHECK constraints (invariants I1, I2
of the spec, enforced by Postgres on every committed statement). -/
def invariant (db : List InventoryItem) : Prop :=
  db.all validRow = true

/-- The UNIQUE constraint on `sku` (invariant I3). -/
def skuNodup (db : List InventoryItem) : Prop :=
  (db.map (fun r => r.sku)).Nodup

/-- Failures of the storage operations in db.rs, one constructor per
distinct `anyhow!` message, plus the sqlx-level error Postgres raises when
an UPDATE would violate a table CHECK constraint. -/
inductive DbError where
  | skuNotFound (sku : String)
  | insufficientStock (available requested : Int)
  | nothingToRelease
  | constraintViolation
  deriving DecidableEq

/-- `SELECT ... FROM inventory WHERE sku = $1` (unique row, if any). -/
def findBySku (db : List InventoryItem) (sku : String) : Option InventoryItem :=
  db.find? (fun r => r.sku == sku)

/-- One atomic SQL UPDATE: rewrite every row matching `cond` through `f`,
returning the new table and the affected-row count.  If any updated row
violates a CHECK constraint, Postgres aborts the whole statement and no row
changes. -/
def updateWhere (db : List InventoryItem) (cond : InventoryItem → Bool)
    (f : InventoryItem → InventoryItem) :
    Except DbError (List InventoryItem × Nat) :=
  if (db.filter cond).all (fun r => validRow (f r)) then
    .ok (db.map (fun r => if cond r then f r else r), (db.filter cond).length)
  else
    .error .constraintViolation

/-- The reservation confirmation (models.rs `ReservationResponse`), minus
the freshly generated UUID and the clock-derived timestamps. -/
structure ReservationResponse where
  sku : String
  quantity : Int
  deriving DecidableEq

/-- `Database::reserve_stock` (db.rs): inside one transaction, lock and read
the row (`SELECT ... FOR UPDATE`); absent sku fails; `available < requested`
fails with the available/requested amounts before any write; otherwise
`UPDATE inventory SET reserved = reserved + $1 WHERE sku = $2` and commit. -/
def reserve_stock (db : List InventoryItem) (sku : String) (q : Int) :
    Except DbError (List InventoryItem × ReservationResponse) :=
  match findBySku db sku with
  | none => .error (.skuNotFound sku)
  | some item =>
    if item.quantity - item.reserved < q then
      .error (.insufficientStock (item.quantity - item.reserved) q)
    else
      match updateWhere db (fun r => r.sku == sku)
          (fun r => { r with reserved := r.reserved + q }) with
      | .error e => .error e
      | .ok (db2, _) => .ok (db2, { sku := sku, quantity := q })

/-- `Database::release_stock` (db.rs): one conditional statement
`UPDATE inventory SET reserved = GREATEST(reserved - $1, 0)
WHERE sku = $2 AND reserved >= $1`; zero affected rows fail with the single
nothing-to-release condition. -/
def release_stock (db : List InventoryItem) (sku : String) (q : Int) :
    Except DbError (List InventoryItem) :=
  match updateWhere db (fun r => r.sku == sku && decide (q ≤ r.reserved))
      (fun r => { r with reserved := max (r.reserved - q) 0 }) with
  | .error e => .error e
  | .ok (db2, n) => if n == 0 then .error .nothingToRelease else .ok db2

/-- `Database::adjust_stock` (db.rs): one unconditional statement
`UPDATE inventory SET quantity = GREATEST(quantity + $1, 0) WHERE sku = $2
RETURNING ...`; no returned row means the sku was absent. -/
def adjust_stock (db : List InventoryItem) (sku : String) (delta : Int) :
    Except DbError (List InventoryItem × InventoryItem) :=
  match updateWhere db (fun r => r.sku == sku)
      (fun r => { r with quantity := max (r.quantity + delta) 0 }) with
  | .error e => .error e
  | .ok (db2, _) =>
    match findBySku db2 sku with
    | none => .error (.skuNotFound sku)
    | some item => .ok (db2, item)

/-- One low-stock alert (models.rs `LowStockAlert`). -/
structure LowStockAlert where
  sku : String
  name : String
  available : Int
  threshold : Int
  warehouse : String
  deriving DecidableEq

/-- Row-to-alert projection used by the SELECT list of
`get_low_stock_items`. -/
def toAlert (r : InventoryItem) : LowStockAlert :=
  { sku := r.sku, name := r.name, available := r.quantity - r.reserved,
    threshold := r.low_stock_threshold, warehouse := r.warehouse }

/-- Ordering used by `ORDER BY (quantity - reserved) ASC`. -/
def alertLe (a b : LowStockAlert) : Prop :=
  a.available ≤ b.available

instance : DecidableRel alertLe :=
  fun a b => inferInstanceAs (Decidable (a.available ≤ b.available))

instance : IsTotal LowStockAlert alertLe :=
  ⟨fun a b => Int.le_total a.available b.available⟩

instance : IsTrans LowStockAlert alertLe :=
  ⟨fun _ _ _ h1 h2 => le_trans h1 h2⟩

/-- `Database::get_low_stock_items` (db.rs): rows with
`(quantity - reserved) < low_stock_threshold`, ordered ascending by
`(quantity - reserved)`, straight from the table (no cache in sight). -/
def get_low_stock_items (db : List InventoryItem) : List LowStockAlert :=
  List.insertionSort alertLe
    ((db.filter
        (fun r => decide (r.quantity - r.reserved < r.low_stock_threshold))).map
      toAlert)

/-- The Redis cache: association list from cache key to cached record.  The
key `inventory:{sku}` built in handlers.rs is injective in the sku, so the
sku stands for the key. -/
def Cache : Type :=
  List (String × InventoryItem)

/-- Redis `GET` of the cached record for a sku (handlers.rs `get_item`). -/
def cacheGet (c : Cache) (sku : String) : Option InventoryItem :=
  (List.find? (fun p => p.1 == sku) c).map (fun p => p.2)

/-- Redis `DEL` of the cache entry for a sku (the invalidation issued after
every successful mutation in handlers.rs). -/
def cacheDel (c : Cache) (sku : String) : Cache :=
  List.filter (fun p => !(p.1 == sku)) c

/-- Redis `SETEX` of the cache entry for a sku (handlers.rs `get_item`,
cache-miss path; the 5-minute TTL plays no role in any claim). -/
def cacheSet (c : Cache) (sku : String) (item : InventoryItem) : Cache :=
  (sku, item) :: cacheDel c sku

/-- The service state seen by the handlers: the Postgres table plus the
Redis cache. -/
structure SysState where
  db : List InventoryItem
  cache : Cache

/-- Handler `get_item` (handlers.rs): on a cache hit return the cached
record without touching the database; on a miss read the row (absent sku is
a NotFound failure), repopulate the cache, and return it. -/
def get_item (s : SysState) (sku : String) :
    Except DbError (SysState × InventoryItem) :=
  match cacheGet s.cache sku with
  | some item => .ok (s, item)
  | none =>
    match findBySku s.db sku with
    | none => .error (.skuNotFound sku)
    | some item => .ok ({ s with cache := cacheSet s.cache sku item }, item)

/-- Handler `reserve_stock` (handlers.rs): run the storage operation; on
success delete the cache entry for the sku and return the confirmation.  (On
failure the handler wraps the db error as a BadRequest response; the error
value is propagated unchanged here.) -/
def reserve_stock_handler (s : SysState) (sku : String) (q : Int) :
    Except DbError (SysState × ReservationResponse) :=
  match reserve_stock s.db sku q with
  | .error e => .error e
  | .ok (db2, resp) => .ok ({ db := db2, cache := cacheDel s.cache sku }, resp)

/-- Handler `release_stock` (handlers.rs): run the storage operation; on
success delete the cache entry for the sku and acknowledge. -/
def release_stock_handler (s : SysState) (sku : String) (q : Int) :
    Except DbError SysState :=
  match release_stock s.db sku q with
  | .error e => .error e
  | .ok db2 => .ok { db := db2, cache := cacheDel s.cache sku }

/-- Handler `adjust_stock` (handlers.rs): run the storage operation; on
success delete the cache entry for the sku and return the updated record. -/
def adjust_stock_handler (s : SysState) (sku : String) (delta : Int) :
    Except DbError (SysState × InventoryItem) :=
  match adjust_stock s.db sku delta with
  | .error e => .error e
  | .ok (db2, item) => .ok ({ db := db2, cache := cacheDel s.cache sku }, item)

/-- Handler `low_stock_alerts` (handlers.rs): delegates to
`get_low_stock_items`, which reads only the database. -/
def low_stock_alerts (s : SysState) : List LowStockAlert :=
  get_low_stock_items s.db

/-- One mutating operation of the reservation engine. -/
inductive Op where
  | reserve (sku : String) (q : Int)
  | release (sku : String) (q : Int)
  | adjust (sku : String) (delta : Int)

/-- The table state after one operation: the committed table on success,
the unchanged table when the transaction rolled back. -/
def applyOp (db : List InventoryItem) : Op → List InventoryItem
  | .reserve sku q =>
    match reserve_stock db sku q with
    | .ok (db2, _) => db2
    | .error _ => db
  | .release sku q =>
    match release_stock db sku q with
    | .ok db2 => db2
    | .error _ => db
  | .adjust sku delta =>
    match adjust_stock db sku delta with
    | .ok (db2, _) => db2
    | .error _ => db

/-- `N` reserve calls for one unit of the same sku, executed in the order
the row lock (`SELECT ... FOR UPDATE` spanning read-validate-write-commit)
serialises them; returns (number of successful calls, number of
insufficient-stock failures, final table). -/
def runReserves (sku : String) : Nat → List InventoryItem →
    Nat × Nat × List InventoryItem
  | 0, db => (0, 0, db)
  | n + 1, db =>
    match reserve_stock db sku 1 with
    | .ok (db2, _) =>
      let rest := runReserves sku n db2
      (rest.1 + 1, rest.2.1, rest.2.2)
    | .error (.insufficientStock _ _) =>
      let rest := runReserves sku n db
      (rest.1, rest.2.1 + 1, rest.2.2)
    | .error _ =>
      let rest := runReserves sku n db
      (rest.1, rest.2.1, rest.2.2)

/-- After a successful mutation on a sku: the cache entry is gone, the row
is present in the table, and a subsequent `get_item` reads that live row
from the table and re-caches it. -/
def freshReadAfter (s : SysState) (sku : String) : Prop :=
  cacheGet s.cache sku = none ∧
  ∃ item, findBySku s.db sku = some item ∧
    get_item s sku = .ok ({ s with cache := cacheSet s.cache sku item }, item)

/-! ### Basic facts about rows, lookup and the atomic UPDATE -/

theorem validRow_iff {r : InventoryItem} :
    validRow r = true ↔
      0 ≤ r.quantity ∧ 0 ≤ r.reserved ∧ r.reserved ≤ r.quantity := by
  simp [validRow, and_assoc]

theorem invariant_mem {db : List InventoryItem} (h : invariant db)
    {r : InventoryItem} (hr : r ∈ db) : validRow r = true :=
  List.all_eq_true.mp h r hr

theorem findBySku_sku {db : List InventoryItem} {sku : String}
    {item : InventoryItem} (h : findBySku db sku = some item) :
    item.sku = sku := by
  have hp := List.find?_some h
  simpa using hp

theorem findBySku_mem {db : List InventoryItem} {sku : String}
    {item : InventoryItem} (h : findBySku db sku = some item) :
    item ∈ db :=
  List.mem_of_find?_eq_some h

theorem findBySku_none {db : List InventoryItem} {sku : String}
    (h : findBySku db sku = none) {r : InventoryItem} (hr : r ∈ db) :
    r.sku ≠ sku := by
  have := List.find?_eq_none.mp h r hr
  simpa using this

theorem updateWhere_ok_of_all {db : List InventoryItem}
    {cond : InventoryItem → Bool} {f : InventoryItem → InventoryItem}
    (h : (db.filter cond).all (fun r => validRow (f r)) = true) :
    updateWhere db cond f =
      .ok (db.map (fun r => if cond r then f r else r),
        (db.filter cond).length) := by
  simp [updateWhere, h]

theorem updateWhere_error_of_bad (cond : InventoryItem → Bool)
    (f : InventoryItem → InventoryItem) {db : List InventoryItem}
    {r : InventoryItem} (hr : r ∈ db) (hc : cond r = true)
    (hbad : validRow (f r) = false) :
    updateWhere db cond f = .error .constraintViolation := by
  have hnot : ¬ ((db.filter cond).all (fun x => validRow (f x)) = true) := by
    simp only [List.all_eq_true]
    intro hall
    have := hall r (List.mem_filter.mpr ⟨hr, hc⟩)
    rw [hbad] at this
    exact Bool.noConfusion this
  simp [updateWhere, hnot]

theorem updateWhere_invariant {db db2 : List InventoryItem}
    {cond : InventoryItem → Bool} {f : InventoryItem → InventoryItem} {n : Nat}
    (hinv : invariant db) (h : updateWhere db cond f = .ok (db2, n)) :
    invariant db2 := by
  unfold updateWhere at h
  by_cases hall : (db.filter cond).all (fun r => validRow (f r)) = true
  · rw [if_pos hall] at h
    injection h with h
    injection h with h1 h2
    subst h1
    simp only [invariant, List.all_eq_true]
    intro x hx
    rw [List.mem_map] at hx
    obtain ⟨r, hr, rfl⟩ := hx
    by_cases hc : cond r = true
    · rw [if_pos hc]
      exact List.all_eq_true.mp hall r (List.mem_filter.mpr ⟨hr, hc⟩)
    · rw [if_neg hc]
      exact invariant_mem hinv hr
  · rw [if_neg hall] at h
    exact Except.noConfusion h

/-- With the UNIQUE constraint on sku, the rows matched by a WHERE clause of
the form `sku = $1 AND g` are exactly the found row when it passes `g`. -/
theorem filter_sku_eq {db : List InventoryItem} {sku : String}
    {item : InventoryItem} (hn : skuNodup db)
    (hf : findBySku db sku = some item) (g : InventoryItem → Bool) :
    db.filter (fun r => r.sku == sku && g r) =
      if g item then [item] else [] := by
  induction db with
  | nil => exact Option.noConfusion hf
  | cons a l ih =>
    have hn2 : a.sku ∉ l.map (fun r => r.sku) ∧ skuNodup l := by
      have := hn
      rw [skuNodup, List.map_cons, List.nodup_cons] at this
      exact this
    by_cases hpa : (a.sku == sku) = true
    · have hsk : a.sku = sku := by simpa using hpa
      have hitem : item = a := by
        rw [findBySku, List.find?_cons_of_pos l hpa] at hf
        exact (Option.some.injEq ..).mp hf.symm
      subst hitem
      have hfl : l.filter (fun r => r.sku == sku && g r) = [] := by
        rw [List.filter_eq_nil_iff]
        intro r hr
        have hne : r.sku ≠ sku := by
          intro hcontra
          exact hn2.1 (List.mem_map.mpr ⟨r, hr, hcontra.trans hsk.symm⟩)

        simp [hne]
      by_cases hg : g item = true
      · rw [if_pos hg]
        rw [List.filter_cons_of_pos (by simp [hpa, hg]), hfl]
      · rw [if_neg hg]
        rw [List.filter_cons_of_neg (by simp [hg]), hfl]
    · have hfl : findBySku l sku = some item := by
        rw [findBySku, List.find?_cons_of_neg l hpa] at hf
        exact hf
      rw [List.filter_cons_of_neg (by simp [hpa])]
      exact ih hn2.2 hfl

/-- Without the `AND g` conjunct. -/
theorem filter_sku_eq_plain {db : List InventoryItem} {sku : String}
    {item : InventoryItem} (hn : skuNodup db)
    (hf : findBySku db sku = some item) :
    db.filter (fun r => r.sku == sku) = [item] := by
  have h := filter_sku_eq hn hf (fun _ => true)
  simpa using h

/-- A WHERE clause on an absent sku matches no row. -/
theorem filter_sku_absent {db : List InventoryItem} {sku : String}
    (hf : findBySku db sku = none) (g : InventoryItem → Bool) :
    db.filter (fun r => r.sku == sku && g r) = [] := by
  rw [List.filter_eq_nil_iff]
  intro r hr
  have := findBySku_none hf hr
  simp [this]

theorem filter_sku_absent_plain {db : List InventoryItem} {sku : String}
    (hf : findBySku db sku = none) :
    db.filter (fun r => r.sku == sku) = [] := by
  rw [List.filter_eq_nil_iff]
  intro r hr
  have := findBySku_none hf hr
  simp [this]

theorem find?_ext {α : Type} {p q : α → Bool} (l : List α)
    (h : ∀ a, p a = q a) : l.find? p = l.find? q := by
  induction l with
  | nil => rfl
  | cons a t ih =>
    by_cases hpa : p a = true
    · rw [List.find?_cons_of_pos t hpa, List.find?_cons_of_pos t ((h a) ▸ hpa)]
    · rw [List.find?_cons_of_neg t hpa, List.find?_cons_of_neg t ((h a) ▸ hpa),
        ih]

/-- An UPDATE never changes the sku column, so lookup commutes with it. -/
theorem findBySku_map_updIf (db : List InventoryItem) (sk2 : String)
    (cond : InventoryItem → Bool) (f : InventoryItem → InventoryItem)
    (hf : ∀ r, (f r).sku = r.sku) :
    findBySku (db.map (fun r => if cond r then f r else r)) sk2 =
      (findBySku db sk2).map (fun r => if cond r then f r else r) := by
  rw [findBySku, List.find?_map, findBySku]
  congr 1
  apply find?_ext
  intro r
  by_cases hc : cond r = true
  · simp [Function.comp, hc, hf]
  · simp [Function.comp, hc]

/-- An UPDATE never changes the sku column, so it preserves the UNIQUE
constraint. -/
theorem skuNodup_map_updIf {db : List InventoryItem}
    (cond : InventoryItem → Bool) (f : InventoryItem → InventoryItem)
    (hf : ∀ r, (f r).sku = r.sku) (hn : skuNodup db) :
    skuNodup (db.map (fun r => if cond r then f r else r)) := by
  rw [skuNodup, List.map_map]
  have he : ((fun r => r.sku) ∘ fun r => if cond r then f r else r) =
      (fun r : InventoryItem => r.sku) := by
    funext r
    by_cases hc : cond r = true
    · simp [Function.comp, hc, hf]
    · simp [Function.comp, hc]
  rw [he]
  exact hn

/-! ### Characterisations of the three storage operations -/

theorem reserve_stock_absent {db : List InventoryItem} {sku : String} (q : Int)
    (h : findBySku db sku = none) :
    reserve_stock db sku q = .error (.skuNotFound sku) := by
  simp [reserve_stock, h]

theorem reserve_stock_insufficient {db : List InventoryItem} {sku : String}
    {q : Int} {item : InventoryItem} (hf : findBySku db sku = some item)
    (h : item.quantity - item.reserved < q) :
    reserve_stock db sku q =
      .error (.insufficientStock (item.quantity - item.reserved) q) := by
  simp [reserve_stock, hf, h]

theorem reserve_stock_ok_eq {db : List InventoryItem} {sku : String}
    {q : Int} {item : InventoryItem}
    (hn : skuNodup db) (hf : findBySku db sku = some item)
    (hav : ¬ (item.quantity - item.reserved < q))
    (hvr : validRow { item with reserved := item.reserved + q } = true) :
    reserve_stock db sku q =
      .ok (db.map (fun r => if r.sku == sku
            then { r with reserved := r.reserved + q } else r),
        { sku := sku, quantity := q }) := by
  have hfil := filter_sku_eq_plain hn hf
  have hall : (db.filter (fun r => r.sku == sku)).all
      (fun r => validRow { r with reserved := r.reserved + q }) = true := by
    rw [hfil]
    simpa using hvr
  have hupd := updateWhere_ok_of_all hall
  simp [reserve_stock, hf, hav, hupd]

theorem release_stock_absent {db : List InventoryItem} {sku : String} (q : Int)
    (hf : findBySku db sku = none) :
    release_stock db sku q = .error .nothingToRelease := by
  have hfil := filter_sku_absent hf (fun r => decide (q ≤ r.reserved))
  have hall : (db.filter
      (fun r => r.sku == sku && decide (q ≤ r.reserved))).all
      (fun r => validRow { r with reserved := max (r.reserved - q) 0 }) = true := by
    rw [hfil]
    rfl
  have hupd := updateWhere_ok_of_all hall
  rw [hfil] at hupd
  simp [release_stock, hupd]

theorem release_stock_guard_fail {db : List InventoryItem} {sku : String}
    {q : Int} {item : InventoryItem}
    (hn : skuNodup db) (hf : findBySku db sku = some item)
    (hg : ¬ (q ≤ item.reserved)) :
    release_stock db sku q = .error .nothingToRelease := by
  have hfil := filter_sku_eq hn hf (fun r => decide (q ≤ r.reserved))
  rw [if_neg (by simpa using hg)] at hfil
  have hall : (db.filter
      (fun r => r.sku == sku && decide (q ≤ r.reserved))).all
      (fun r => validRow { r with reserved := max (r.reserved - q) 0 }) = true := by
    rw [hfil]
    rfl
  have hupd := updateWhere_ok_of_all hall
  rw [hfil] at hupd
  simp [release_stock, hupd]

theorem release_stock_check_fail {db : List InventoryItem} {sku : String}
    {q : Int} {item : InventoryItem}
    (hf : findBySku db sku = some item) (hg : q ≤ item.reserved)
    (hbad : validRow { item with reserved := max (item.reserved - q) 0 } = false) :
    release_stock db sku q = .error .constraintViolation := by
  have hc : (item.sku == sku && decide (q ≤ item.reserved)) = true := by
    simp [findBySku_sku hf, hg]
  have hupd := updateWhere_error_of_bad
    (fun r => r.sku == sku && decide (q ≤ r.reserved))
    (fun r => { r with reserved := max (r.reserved - q) 0 })
    (findBySku_mem hf) hc hbad
  simp [release_stock, hupd]

theorem release_stock_ok_eq {db : List InventoryItem} {sku : String}
    {q : Int} {item : InventoryItem}
    (hn : skuNodup db) (hf : findBySku db sku = some item)
    (hg : q ≤ item.reserved)
    (hvr : validRow { item with reserved := max (item.reserved - q) 0 } = true) :
    release_stock db sku q =
      .ok (db.map (fun r => if r.sku == sku && decide (q ≤ r.reserved)
            then { r with reserved := max (r.reserved - q) 0 } else r)) := by
  have hfil := filter_sku_eq hn hf (fun r => decide (q ≤ r.reserved))
  rw [if_pos (by simpa using hg)] at hfil
  have hall : (db.filter
      (fun r => r.sku == sku && decide (q ≤ r.reserved))).all
      (fun r => validRow { r with reserved := max (r.reserved - q) 0 }) = true := by
    rw [hfil]
    simpa using hvr
  have hupd := updateWhere_ok_of_all hall
  rw [hfil] at hupd
  simp [release_stock, hupd]

/-- `findBySku_map_updIf`, beta-reduced at the UPDATE used by
`adjust_stock`. -/
theorem findBySku_map_adj (db : List InventoryItem) (sku sk2 : String)
    (d : Int) :
    findBySku (db.map (fun r => if r.sku == sku
        then { r with quantity := max (r.quantity + d) 0 } else r)) sk2 =
      (findBySku db sk2).map (fun r => if r.sku == sku
        then { r with quantity := max (r.quantity + d) 0 } else r) :=
  findBySku_map_updIf db sk2 (fun r => r.sku == sku)
    (fun r => { r with quantity := max (r.quantity + d) 0 }) (fun _ => rfl)

theorem adjust_stock_absent {db : List InventoryItem} {sku : String} (d : Int)
    (hf : findBySku db sku = none) :
    adjust_stock db sku d = .error (.skuNotFound sku) := by
  have hfil := filter_sku_absent_plain hf
  have hall : (db.filter (fun r => r.sku == sku)).all
      (fun r => validRow { r with quantity := max (r.quantity + d) 0 }) = true := by
    rw [hfil]
    rfl
  have hupd := updateWhere_ok_of_all hall
  have hfind2 := findBySku_map_adj db sku sku d
  rw [hf] at hfind2
  simp only [Option.map_none'] at hfind2
  simp only [adjust_stock, hupd, hfind2]

theorem adjust_stock_check_fail {db : List InventoryItem} {sku : String}
    {d : Int} {item : InventoryItem}
    (hf : findBySku db sku = some item)
    (hbad : validRow { item with quantity := max (item.quantity + d) 0 } = false) :
    adjust_stock db sku d = .error .constraintViolation := by
  have hc : (item.sku == sku) = true := by
    simp [findBySku_sku hf]
  have hupd := updateWhere_error_of_bad (fun r => r.sku == sku)
    (fun r => { r with quantity := max (r.quantity + d) 0 })
    (findBySku_mem hf) hc hbad
  simp [adjust_stock, hupd]

theorem adjust_stock_ok_eq {db : List InventoryItem} {sku : String}
    {d : Int} {item : InventoryItem}
    (hn : skuNodup db) (hf : findBySku db sku = some item)
    (hvr : validRow { item with quantity := max (item.quantity + d) 0 } = true) :
    adjust_stock db sku d =
      .ok (db.map (fun r => if r.sku == sku
            then { r with quantity := max (r.quantity + d) 0 } else r),
        { item with quantity := max (item.quantity + d) 0 }) := by
  have hfil := filter_sku_eq_plain hn hf
  have hall : (db.filter (fun r => r.sku == sku)).all
      (fun r => validRow { r with quantity := max (r.quantity + d) 0 }) = true := by
    rw [hfil]
    simpa using hvr
  have hupd := updateWhere_ok_of_all hall
  have hfind2 := findBySku_map_adj db sku sku d
  rw [hf] at hfind2
  have hsk : (item.sku == sku) = true := by simp [findBySku_sku hf]
  simp only [Option.map_some', hsk, if_true] at hfind2
  simp only [adjust_stock, hupd, hfind2]

/-- `findBySku_map_updIf`, beta-reduced at the UPDATE used by
`reserve_stock`. -/
theorem findBySku_map_res (db : List InventoryItem) (sku sk2 : String)
    (q : Int) :
    findBySku (db.map (fun r => if r.sku == sku
        then { r with reserved := r.reserved + q } else r)) sk2 =
      (findBySku db sk2).map (fun r => if r.sku == sku
        then { r with reserved := r.reserved + q } else r) :=
  findBySku_map_updIf db sk2 (fun r => r.sku == sku)
    (fun r => { r with reserved := r.reserved + q }) (fun _ => rfl)

/-- `findBySku_map_updIf`, beta-reduced at the UPDATE used by
`release_stock`. -/
theorem findBySku_map_rel (db : List InventoryItem) (sku sk2 : String)
    (q : Int) :
    findBySku (db.map (fun r => if r.sku == sku && decide (q ≤ r.reserved)
        then { r with reserved := max (r.reserved - q) 0 } else r)) sk2 =
      (findBySku db sk2).map
        (fun r => if r.sku == sku && decide (q ≤ r.reserved)
          then { r with reserved := max (r.reserved - q) 0 } else r) :=
  findBySku_map_updIf db sk2 (fun r => r.sku == sku && decide (q ≤ r.reserved))
    (fun r => { r with reserved := max (r.reserved - q) 0 }) (fun _ => rfl)

/-! ### Every committed operation preserves the CHECK constraints -/

theorem reserve_stock_inv {db db2 : List InventoryItem} {sku : String}
    {q : Int} {resp : ReservationResponse} (hinv : invariant db)
    (h : reserve_stock db sku q = .ok (db2, resp)) : invariant db2 := by
  unfold reserve_stock at h
  split at h
  · exact Except.noConfusion h
  · split at h
    · exact Except.noConfusion h
    · split at h
      · exact Except.noConfusion h
      · next dbu n hu =>
        injection h with h2
        have hdb : dbu = db2 := congrArg Prod.fst h2
        exact hdb ▸ updateWhere_invariant hinv hu

theorem release_stock_inv {db db2 : List InventoryItem} {sku : String}
    {q : Int} (hinv : invariant db)
    (h : release_stock db sku q = .ok db2) : invariant db2 := by
  unfold release_stock at h
  split at h
  · exact Except.noConfusion h
  · next dbu n hu =>
    split at h
    · exact Except.noConfusion h
    · injection h with h2
      exact h2 ▸ updateWhere_invariant hinv hu

theorem adjust_stock_inv {db db2 : List InventoryItem} {sku : String}
    {d : Int} {item : InventoryItem} (hinv : invariant db)
    (h : adjust_stock db sku d = .ok (db2, item)) : invariant db2 := by
  unfold adjust_stock at h
  split at h
  · exact Except.noConfusion h
  · next dbu n hu =>
    split at h
    · exact Except.noConfusion h
    · injection h with h2
      have hdb : dbu = db2 := congrArg Prod.fst h2
      exact hdb ▸ updateWhere_invariant hinv hu

theorem applyOp_invariant {db : List InventoryItem} (op : Op)
    (hinv : invariant db) : invariant (applyOp db op) := by
  cases op with
  | reserve sku q =>
    simp only [applyOp]
    split
    · next db2 resp h => exact reserve_stock_inv hinv h
    · next => exact hinv
  | release sku q =>
    simp only [applyOp]
    split
    · next db2 h => exact release_stock_inv hinv h
    · next => exact hinv
  | adjust sku d =>
    simp only [applyOp]
    split
    · next db2 item h => exact adjust_stock_inv hinv h
    · next => exact hinv

theorem validRow_update_reserved {item : InventoryItem} {x : Int}
    (h1 : 0 ≤ item.quantity) (h2 : 0 ≤ x) (h3 : x ≤ item.quantity) :
    validRow { item with reserved := x } = true := by
  rw [validRow_iff]
  exact ⟨h1, h2, h3⟩

theorem validRow_update_reserved_false {item : InventoryItem} {x : Int}
    (h : item.quantity < x) :
    validRow { item with reserved := x } = false := by
  rw [Bool.eq_false_iff]
  intro htrue
  rw [validRow_iff] at htrue
  have h3 : x ≤ item.quantity := htrue.2.2
  omega

theorem validRow_update_quantity {item : InventoryItem} {x : Int}
    (h1 : 0 ≤ x) (h2 : 0 ≤ item.reserved) (h3 : item.reserved ≤ x) :
    validRow { item with quantity := x } = true := by
  rw [validRow_iff]
  exact ⟨h1, h2, h3⟩

theorem validRow_update_quantity_false {item : InventoryItem} {x : Int}
    (h : x < item.reserved) :
    validRow { item with quantity := x } = false := by
  rw [Bool.eq_false_iff]
  intro htrue
  rw [validRow_iff] at htrue
  have h3 : item.reserved ≤ x := htrue.2.2
  omega

/-- One serialised one-unit reservation against a row with positive
availability: it commits, and the post-state keeps the UNIQUE and CHECK
constraints with the row's reserved count one higher. -/
theorem reserve_one_step {db : List InventoryItem} {sku : String}
    {item : InventoryItem} (hn : skuNodup db) (hinv : invariant db)
    (hf : findBySku db sku = some item)
    (hpos : 0 < item.quantity - item.reserved) :
    ∃ db2, reserve_stock db sku 1 = .ok (db2, { sku := sku, quantity := 1 }) ∧
      skuNodup db2 ∧ invariant db2 ∧
      findBySku db2 sku = some { item with reserved := item.reserved + 1 } := by
  have hvr0 := validRow_iff.mp (invariant_mem hinv (findBySku_mem hf))
  have hq0 : 0 ≤ item.quantity := hvr0.1
  have hr0 : 0 ≤ item.reserved := hvr0.2.1
  have hvr : validRow { item with reserved := item.reserved + 1 } = true :=
    validRow_update_reserved hq0 (by omega) (by omega)
  have hav : ¬ (item.quantity - item.reserved < 1) := by omega
  have heq := reserve_stock_ok_eq hn hf hav hvr
  refine ⟨_, heq, ?_, ?_, ?_⟩
  · exact skuNodup_map_updIf (fun r => r.sku == sku)
      (fun r => { r with reserved := r.reserved + 1 }) (fun _ => rfl) hn
  · exact reserve_stock_inv hinv heq
  · have hfind2 := findBySku_map_res db sku sku 1
    rw [hf] at hfind2
    have hsk : (item.sku == sku) = true := by simp [findBySku_sku hf]
    simp only [Option.map_some', hsk, if_true] at hfind2
    exact hfind2

/-- Outcome counts of `N` serialised one-unit reservations: `min N A`
succeed and `N - A` fail with insufficient stock, where `A` is the initial
availability of the row. -/
theorem runReserves_spec {sku : String} (N : Nat) :
    ∀ (db : List InventoryItem) (item : InventoryItem) (A : Nat),
    skuNodup db → invariant db → findBySku db sku = some item →
    item.quantity - item.reserved = (A : Int) →
    (runReserves sku N db).1 = min N A ∧
      (runReserves sku N db).2.1 = N - A := by
  induction N with
  | zero =>
    intro db item A hn hinv hf hA
    simp [runReserves]
  | succ n ih =>
    intro db item A hn hinv hf hA
    cases A with
    | zero =>
      have hlt : item.quantity - item.reserved < 1 := by omega
      have herr := reserve_stock_insufficient hf hlt
      have hrec := ih db item 0 hn hinv hf hA
      simp only [runReserves, herr]
      refine ⟨?_, ?_⟩
      · rw [hrec.1]
        omega
      · rw [hrec.2]
        omega
    | succ A2 =>
      have hpos : 0 < item.quantity - item.reserved := by omega
      obtain ⟨db2, heq, hn2, hinv2, hf2⟩ := reserve_one_step hn hinv hf hpos
      have hA2 : ({ item with reserved := item.reserved + 1 } :
          InventoryItem).quantity -
          ({ item with reserved := item.reserved + 1 } :
          InventoryItem).reserved = (A2 : Int) := by
        show item.quantity - (item.reserved + 1) = (A2 : Int)
        push_cast at hA
        omega
      have hrec := ih db2 _ A2 hn2 hinv2 hf2 hA2
      simp only [runReserves, heq]
      refine ⟨?_, ?_⟩
      · rw [hrec.1]
        omega
      · rw [hrec.2]
        omega

instance (db : List InventoryItem) : Decidable (invariant db) :=
  inferInstanceAs (Decidable (db.all validRow = true))

instance (db : List InventoryItem) : Decidable (skuNodup db) :=
  inferInstanceAs
    (Decidable ((db.map (fun r : InventoryItem => r.sku)).Nodup))

/-! ### Concrete fixtures used by the witnesses and counterexamples -/

def itemW : InventoryItem :=
  { sku := "SKU-1", name := "Laptop", quantity := 10, reserved := 2,
    warehouse := "JKT-1", low_stock_threshold := 5 }

def dbW : List InventoryItem :=
  [itemW]

def sysW : SysState :=
  { db := dbW, cache := [] }

def itemC3 : InventoryItem :=
  { sku := "SKU-ADJ", name := "Monitor", quantity := 5, reserved := 3,
    warehouse := "SBY-1", low_stock_threshold := 10 }

def itemC5 : InventoryItem :=
  { sku := "SKU-REL", name := "Cable", quantity := 5, reserved := 0,
    warehouse := "JKT-1", low_stock_threshold := 10 }

/-! ### The claims -/

/-- Claim C1: for every sequence of reserve/release/adjust operations
applied to a table whose rows satisfy `0 ≤ reserved ≤ quantity` and
`0 ≤ quantity`, the table still satisfies them after each committed
operation (every prefix of a sequence is itself a sequence, so this covers
each intermediate committed state).  The CHECK constraints make even the
adjust-below-reserved exception tolerated by the claim unreachable: such an
adjust never commits at all (see the C3 theorems), so the invariant holds
without exception. -/
theorem C1_invariant_preservation (ops : List Op) (db : List InventoryItem)
    (hinv : invariant db) : invariant (ops.foldl applyOp db) := by
  induction ops generalizing db with
  | nil => exact hinv
  | cons op rest ih => exact ih _ (applyOp_invariant op hinv)

theorem C1_witness :
    invariant ([Op.reserve "SKU-1" 7, Op.adjust "SKU-1" (-4),
      Op.release "SKU-1" 7].foldl applyOp dbW) :=
  C1_invariant_preservation _ dbW (by decide)

/-- Claim C2: against a row with `available = A`, `N > A` one-unit reserve
calls — which the `FOR UPDATE` row lock serialises into some sequential
order, and all `N` calls are identical so every order gives this run —
produce exactly `A` committed reservations and `N - A`
insufficient-stock failures: no interleaving admitted by the lock lets two
calls use the same stale `available` and oversell. -/
theorem C2_no_oversell (db : List InventoryItem) (sku : String)
    (item : InventoryItem) (A N : Nat)
    (hn : skuNodup db) (hinv : invariant db)
    (hf : findBySku db sku = some item)
    (hA : item.quantity - item.reserved = (A : Int))
    (hN : A < N) :
    (runReserves sku N db).1 = A ∧ (runReserves sku N db).2.1 = N - A := by
  have h := runReserves_spec N db item A hn hinv hf hA
  refine ⟨?_, h.2⟩
  rw [h.1]
  omega

theorem C2_witness :
    (runReserves "SKU-1" 10 dbW).1 = 8 ∧
      (runReserves "SKU-1" 10 dbW).2.1 = 2 :=
  C2_no_oversell dbW "SKU-1" itemW 8 10 (by decide) (by decide) rfl
    (by decide) (by decide)

/-- Claim C4: when the requested amount exceeds `available =
quantity - reserved`, `reserve` fails with the insufficient-stock failure
carrying both the current available and the requested amounts, and the
rolled-back transaction leaves the table unchanged (no partial
reservation). -/
theorem C4_insufficient (db : List InventoryItem) (sku : String) (q : Int)
    (item : InventoryItem) (hf : findBySku db sku = some item)
    (h : item.quantity - item.reserved < q) :
    reserve_stock db sku q =
      .error (.insufficientStock (item.quantity - item.reserved) q) ∧
      applyOp db (Op.reserve sku q) = db := by
  have herr := reserve_stock_insufficient hf h
  exact ⟨herr, by simp [applyOp, herr]⟩

theorem C4_witness :
    reserve_stock dbW "SKU-1" 9 =
      .error (.insufficientStock (itemW.quantity - itemW.reserved) 9) ∧
      applyOp dbW (Op.reserve "SKU-1" 9) = dbW :=
  C4_insufficient dbW "SKU-1" 9 itemW rfl (by decide)

/-- Claim C6: for a sku absent from the table, both `reserve` and `adjust`
fail with the not-found failure and leave every record unchanged. -/
theorem C6_not_found (db : List InventoryItem) (sku : String) (q d : Int)
    (h : findBySku db sku = none) :
    reserve_stock db sku q = .error (.skuNotFound sku) ∧
    adjust_stock db sku d = .error (.skuNotFound sku) ∧
    applyOp db (Op.reserve sku q) = db ∧
    applyOp db (Op.adjust sku d) = db := by
  have h1 := reserve_stock_absent q h
  have h2 := adjust_stock_absent d h
  exact ⟨h1, h2, by simp [applyOp, h1], by simp [applyOp, h2]⟩

theorem C6_witness :
    reserve_stock dbW "SKU-MISSING" 1 = .error (.skuNotFound "SKU-MISSING") ∧
    adjust_stock dbW "SKU-MISSING" 5 = .error (.skuNotFound "SKU-MISSING") ∧
    applyOp dbW (Op.reserve "SKU-MISSING" 1) = dbW ∧
    applyOp dbW (Op.adjust "SKU-MISSING" 5) = dbW :=
  C6_not_found dbW "SKU-MISSING" 1 5 rfl

/-- Claim C3 counterexample: on the row (quantity 5, reserved 3), the claim
predicts `adjust(sku, -4)` commits successfully with
`quantity = max 0 (5 - 4) = 1 < 3 = reserved`; instead the `valid_reserved`
CHECK constraint declared in `run_migrations` aborts the UPDATE, so the
call fails and nothing commits. -/
theorem C3_counterexample :
    adjust_stock [itemC3] "SKU-ADJ" (-4) = .error .constraintViolation ∧
      max 0 (itemC3.quantity + (-4)) < itemC3.reserved ∧
      ¬ ∃ out, adjust_stock [itemC3] "SKU-ADJ" (-4) = .ok out := by
  refine ⟨rfl, by decide, ?_⟩
  rintro ⟨out, h⟩
  rw [show adjust_stock [itemC3] "SKU-ADJ" (-4) =
      .error .constraintViolation from rfl] at h
  exact Except.noConfusion h

/-- Claim C3 (amended): for every record with
`max 0 (quantity + delta) < reserved`, `adjust(sku, delta)` does NOT
commit: the `valid_reserved` CHECK constraint aborts the statement, the
call fails with a constraint violation, and the record is left unchanged —
the core never leaves a committed record with `quantity < reserved`. -/
theorem C3_amended (db : List InventoryItem) (sku : String) (delta : Int)
    (item : InventoryItem) (hf : findBySku db sku = some item)
    (h : max 0 (item.quantity + delta) < item.reserved) :
    adjust_stock db sku delta = .error .constraintViolation ∧
      applyOp db (Op.adjust sku delta) = db := by
  have hbad : validRow
      { item with quantity := max (item.quantity + delta) 0 } = false := by
    apply validRow_update_quantity_false
    omega
  have herr := adjust_stock_check_fail hf hbad
  exact ⟨herr, by simp [applyOp, herr]⟩

theorem C3_witness :
    adjust_stock [itemC3] "SKU-ADJ" (-10) = .error .constraintViolation ∧
      applyOp [itemC3] (Op.adjust "SKU-ADJ" (-10)) = [itemC3] :=
  C3_amended [itemC3] "SKU-ADJ" (-10) itemC3 rfl (by decide)

/-- Claim C5 counterexample: the record (quantity 5, reserved 0) exists and
its `reserved = 0 ≥ -10 = requested`, so the claim predicts the release
commits and decrements `reserved` by exactly `-10`; instead the new value
`reserved = 10` would exceed `quantity = 5`, the `valid_reserved` CHECK
aborts the statement, and the call fails — with a constraint violation,
not with the nothing-to-release condition, and with no decrement. -/
theorem C5_counterexample :
    release_stock [itemC5] "SKU-REL" (-10) = .error .constraintViolation ∧
      -10 ≤ itemC5.reserved ∧
      ¬ ∃ db2, release_stock [itemC5] "SKU-REL" (-10) = .ok db2 := by
  refine ⟨rfl, by decide, ?_⟩
  rintro ⟨db2, h⟩
  rw [show release_stock [itemC5] "SKU-REL" (-10) =
      .error .constraintViolation from rfl] at h
  exact Except.noConfusion h

/-- Claim C5 (amended): `release(sku, q)` decrements `reserved` by exactly
`q` iff the record exists, its current `reserved ≥ q` AND the decremented
value `reserved - q` still respects the `valid_reserved` CHECK
(`reserved - q ≤ quantity` — automatic for `q ≥ 0`, the spec's intended
domain, but not for negative `q`).  When no row passes the
`reserved ≥ q` guard — unknown sku or over-release, not distinguished —
nothing changes and the single nothing-to-release condition is returned;
when the guard passes but the CHECK would break, the statement fails with
a constraint violation; in every case `reserved` is never driven negative
(the table invariants still hold afterwards). -/
theorem C5_release (db : List InventoryItem) (sku : String) (q : Int)
    (hn : skuNodup db) (hinv : invariant db) :
    (∀ item, findBySku db sku = some item → q ≤ item.reserved →
      item.reserved - q ≤ item.quantity →
      ∃ db2, release_stock db sku q = .ok db2 ∧
        findBySku db2 sku =
          some { item with reserved := item.reserved - q }) ∧
    (findBySku db sku = none →
      release_stock db sku q = .error .nothingToRelease) ∧
    (∀ item, findBySku db sku = some item → ¬ (q ≤ item.reserved) →
      release_stock db sku q = .error .nothingToRelease) ∧
    (∀ item, findBySku db sku = some item → q ≤ item.reserved →
      item.quantity < item.reserved - q →
      release_stock db sku q = .error .constraintViolation) ∧
    invariant (applyOp db (Op.release sku q)) := by
  refine ⟨?_, ?_, ?_, ?_, applyOp_invariant _ hinv⟩
  · intro item hf hg hb
    have hvr0 := validRow_iff.mp (invariant_mem hinv (findBySku_mem hf))
    have hmx : max (item.reserved - q) 0 = item.reserved - q := by
      omega
    have hvr : validRow
        { item with reserved := max (item.reserved - q) 0 } = true := by
      rw [hmx]
      exact validRow_update_reserved hvr0.1 (by omega) hb
    have heq := release_stock_ok_eq hn hf hg hvr
    refine ⟨_, heq, ?_⟩
    have hfind2 := findBySku_map_rel db sku sku q
    rw [hf] at hfind2
    have hc : (item.sku == sku && decide (q ≤ item.reserved)) = true := by
      simp [findBySku_sku hf, hg]
    simp only [Option.map_some', hc, if_true] at hfind2
    rw [hfind2, hmx]
  · intro hf
    exact release_stock_absent q hf
  · intro item hf hg
    exact release_stock_guard_fail hn hf hg
  · intro item hf hg hb
    have hbad : validRow
        { item with reserved := max (item.reserved - q) 0 } = false := by
      have hmx : max (item.reserved - q) 0 = item.reserved - q := by
        have hvr0 := validRow_iff.mp (invariant_mem hinv (findBySku_mem hf))
        omega
      rw [hmx]
      exact validRow_update_reserved_false hb
    exact release_stock_check_fail hf hg hbad

theorem C5_witness :
    ∃ db2, release_stock dbW "SKU-1" 2 = .ok db2 ∧
      findBySku db2 "SKU-1" =
        some { itemW with reserved := itemW.reserved - 2 } :=
  (C5_release dbW "SKU-1" 2 (by decide) (by decide)).1 itemW rfl
    (by decide) (by decide)

/-- Claim C9: neither the handler nor the store checks that the requested
reservation quantity is positive — for an existing record satisfying the
row invariants and any `q` with `-reserved ≤ q ≤ 0`, the whole
reserve path succeeds: the availability test passes (`q ≤ 0 ≤ available`),
`reserved` becomes `reserved + q` (a decrease for `q < 0`), and a
reservation confirmation carrying the non-positive quantity is returned. -/
theorem C9_nonpositive_reserve (s : SysState) (sku : String) (q : Int)
    (item : InventoryItem)
    (hn : skuNodup s.db) (hinv : invariant s.db)
    (hf : findBySku s.db sku = some item)
    (h1 : -item.reserved ≤ q) (h2 : q ≤ 0) :
    ∃ s2, reserve_stock_handler s sku q =
      .ok (s2, { sku := sku, quantity := q }) ∧
      findBySku s2.db sku =
        some { item with reserved := item.reserved + q } := by
  have hvr0 := validRow_iff.mp (invariant_mem hinv (findBySku_mem hf))
  have hav : ¬ (item.quantity - item.reserved < q) := by omega
  have hvr : validRow { item with reserved := item.reserved + q } = true :=
    validRow_update_reserved hvr0.1 (by omega) (by omega)
  have heq := reserve_stock_ok_eq hn hf hav hvr
  have hfind2 := findBySku_map_res s.db sku sku q
  rw [hf] at hfind2
  have hsk : (item.sku == sku) = true := by simp [findBySku_sku hf]
  simp only [Option.map_some', hsk, if_true] at hfind2
  refine ⟨⟨s.db.map (fun r => if r.sku == sku
      then { r with reserved := r.reserved + q } else r),
    cacheDel s.cache sku⟩, ?_, hfind2⟩
  simp only [reserve_stock_handler, heq]

theorem C9_witness :
    ∃ s2, reserve_stock_handler sysW "SKU-1" (-2) =
      .ok (s2, { sku := "SKU-1", quantity := -2 }) ∧
      findBySku s2.db "SKU-1" =
        some { itemW with reserved := itemW.reserved + (-2) } :=
  C9_nonpositive_reserve sysW "SKU-1" (-2) itemW (by decide) (by decide)
    rfl (by decide) (by decide)

/-- Claim C10: `release` does not check that the quantity is positive —
for an existing record satisfying the row invariants and any `q ≤ 0` with
`reserved - q ≤ quantity`, the `reserved >= q` guard holds trivially, so
the call never fails with the nothing-to-release condition and instead
commits `reserved := reserved - q`, increasing `reserved` by `-q`. -/
theorem C10_nonpositive_release (db : List InventoryItem) (sku : String)
    (q : Int) (item : InventoryItem)
    (hn : skuNodup db) (hinv : invariant db)
    (hf : findBySku db sku = some item)
    (hq : q ≤ 0) (hb : item.reserved - q ≤ item.quantity) :
    release_stock db sku q ≠ .error .nothingToRelease ∧
    ∃ db2, release_stock db sku q = .ok db2 ∧
      findBySku db2 sku =
        some { item with reserved := item.reserved - q } := by
  have hvr0 := validRow_iff.mp (invariant_mem hinv (findBySku_mem hf))
  have hg : q ≤ item.reserved := by omega
  have hmx : max (item.reserved - q) 0 = item.reserved - q := by omega
  have hvr : validRow
      { item with reserved := max (item.reserved - q) 0 } = true := by
    rw [hmx]
    exact validRow_update_reserved hvr0.1 (by omega) hb
  have heq := release_stock_ok_eq hn hf hg hvr
  have hfind2 := findBySku_map_rel db sku sku q
  rw [hf] at hfind2
  have hc : (item.sku == sku && decide (q ≤ item.reserved)) = true := by
    simp [findBySku_sku hf, hg]
  simp only [Option.map_some', hc, if_true] at hfind2
  refine ⟨?_, _, heq, ?_⟩
  · rw [heq]
    intro hcontra
    exact Except.noConfusion hcontra
  · rw [hfind2, hmx]

theorem C10_witness :
    release_stock dbW "SKU-1" (-3) ≠ .error .nothingToRelease ∧
    ∃ db2, release_stock dbW "SKU-1" (-3) = .ok db2 ∧
      findBySku db2 "SKU-1" =
        some { itemW with reserved := itemW.reserved - (-3) } :=
  C10_nonpositive_release dbW "SKU-1" (-3) itemW (by decide) (by decide)
    rfl (by decide) (by decide)

/-- Claim C8: `lowStockItems` returns an alert exactly for the records with
`quantity - reserved < low_stock_threshold`, the returned list is ordered
ascending by `available` (most critical first), and the result is computed
from the live table only — two states with the same table but any two
caches give the same alerts. -/
theorem C8_low_stock (db : List InventoryItem) :
    List.Sorted alertLe (get_low_stock_items db) ∧
    (∀ a, a ∈ get_low_stock_items db ↔
      ∃ r, r ∈ db ∧ r.quantity - r.reserved < r.low_stock_threshold ∧
        a = toAlert r) ∧
    (∀ c, low_stock_alerts { db := db, cache := c } =
      get_low_stock_items db) := by
  refine ⟨List.sorted_insertionSort alertLe _, ?_, fun c => rfl⟩
  intro a
  rw [get_low_stock_items, List.mem_insertionSort, List.mem_map]
  constructor
  · rintro ⟨r, hr, rfl⟩
    rw [List.mem_filter] at hr
    exact ⟨r, hr.1, by simpa using hr.2, rfl⟩
  · rintro ⟨r, hr, hcond, rfl⟩
    exact ⟨r, List.mem_filter.mpr ⟨hr, by simpa using hcond⟩, rfl⟩

/-! ### Cache behaviour -/

theorem cacheGet_cacheDel (c : Cache) (sku : String) :
    cacheGet (cacheDel c sku) sku = none := by
  have hfind : List.find? (fun p => p.1 == sku) (cacheDel c sku) = none := by
    rw [List.find?_eq_none]
    intro p hp
    simp only [cacheDel, List.mem_filter, Bool.not_eq_true'] at hp
    simp [hp.2]
  rw [cacheGet, hfind]
  rfl

theorem get_item_of_miss {s : SysState} {sku : String} {item : InventoryItem}
    (hmiss : cacheGet s.cache sku = none)
    (hf : findBySku s.db sku = some item) :
    get_item s sku =
      .ok ({ s with cache := cacheSet s.cache sku item }, item) := by
  simp only [get_item, hmiss, hf]

theorem get_item_of_hit {c : Cache} {sku : String} {item : InventoryItem}
    (hhit : cacheGet c sku = some item) (dbx : List InventoryItem) :
    get_item { db := dbx, cache := c } sku =
      .ok ({ db := dbx, cache := c }, item) := by
  simp only [get_item, hhit]

/-- A committed reservation implies the row is present afterwards. -/
theorem reserve_stock_ok_find {db db2 : List InventoryItem} {sku : String}
    {q : Int} {resp : ReservationResponse}
    (h : reserve_stock db sku q = .ok (db2, resp)) :
    ∃ it, findBySku db2 sku = some it := by
  unfold reserve_stock at h
  split at h
  · exact Except.noConfusion h
  · next item hfm =>
    split at h
    · exact Except.noConfusion h
    · split at h
      · exact Except.noConfusion h
      · next dbu n hu =>
        injection h with h2
        have hdb : dbu = db2 := congrArg Prod.fst h2
        subst hdb
        unfold updateWhere at hu
        split at hu
        · injection hu with hu2
          rw [Prod.mk.injEq] at hu2
          rw [← hu2.1]
          have hfind2 := findBySku_map_res db sku sku q
          rw [hfm] at hfind2
          simp only [Option.map_some'] at hfind2
          exact ⟨_, hfind2⟩
        · exact Except.noConfusion hu

/-- A committed release implies the row is present afterwards. -/
theorem release_stock_ok_find {db db2 : List InventoryItem} {sku : String}
    {q : Int} (h : release_stock db sku q = .ok db2) :
    ∃ it, findBySku db2 sku = some it := by
  unfold release_stock at h
  split at h
  · exact Except.noConfusion h
  · next dbu n hu =>
    split at h
    · exact Except.noConfusion h
    · next hne =>
      injection h with h2
      subst h2
      unfold updateWhere at hu
      split at hu
      · injection hu with hu2
        rw [Prod.mk.injEq] at hu2
        have hnz : (db.filter
            (fun r => r.sku == sku && decide (q ≤ r.reserved))).length ≠ 0 := by
          rw [hu2.2]
          simpa using hne
        obtain ⟨r, hr⟩ := List.exists_mem_of_ne_nil _
          (List.length_pos.mp (Nat.pos_of_ne_zero hnz))
        rw [List.mem_filter] at hr
        have hrand := hr.2
        rw [Bool.and_eq_true] at hrand
        have hfs : (db.find? (fun r => r.sku == sku)).isSome := by
          rw [List.find?_isSome]
          exact ⟨r, hr.1, hrand.1⟩
        obtain ⟨item, hfm0⟩ := Option.isSome_iff_exists.mp hfs
        have hfm : findBySku db sku = some item := hfm0
        rw [← hu2.1]
        have hfind2 := findBySku_map_rel db sku sku q
        rw [hfm] at hfind2
        simp only [Option.map_some'] at hfind2
        exact ⟨_, hfind2⟩
      · exact Except.noConfusion hu

/-- A committed adjust returns exactly the row as found afterwards. -/
theorem adjust_stock_ok_find {db db2 : List InventoryItem} {sku : String}
    {d : Int} {item : InventoryItem}
    (h : adjust_stock db sku d = .ok (db2, item)) :
    findBySku db2 sku = some item := by
  unfold adjust_stock at h
  split at h
  · exact Except.noConfusion h
  · next dbu n hu =>
    split at h
    · exact Except.noConfusion h
    · next it2 hfind =>
      injection h with h2
      have hdb : dbu = db2 := congrArg Prod.fst h2
      have hit : it2 = item := congrArg Prod.snd h2
      rw [← hdb, ← hit]
      exact hfind

/-- Claim C7: after any successful reserve, release or adjust on a sku, the
handler has deleted the cache entry for that sku, so a subsequent
`get_item` misses the cache, reads the post-mutation record from the table
and re-caches it — even if a stale entry existed before the mutation; and
on a cache hit `get_item` returns the cached value without consulting the
table (the same hit answer for every table contents). -/
theorem C7_cache_coherence (s s2 : SysState) (sku : String) :
    (((∃ q resp, reserve_stock_handler s sku q = .ok (s2, resp)) ∨
      (∃ q, release_stock_handler s sku q = .ok s2) ∨
      (∃ d it, adjust_stock_handler s sku d = .ok (s2, it))) →
        freshReadAfter s2 sku) ∧
    (∀ it, cacheGet s.cache sku = some it →
      ∀ dbx, get_item { db := dbx, cache := s.cache } sku =
        .ok ({ db := dbx, cache := s.cache }, it)) := by
  constructor
  · rintro (⟨q, resp, h⟩ | ⟨q, h⟩ | ⟨d, it, h⟩)
    · unfold reserve_stock_handler at h
      split at h
      · exact Except.noConfusion h
      · next db2 r hres =>
        injection h with h2
        have hs2 : ({ db := db2, cache := cacheDel s.cache sku } :
            SysState) = s2 := congrArg Prod.fst h2
        subst hs2
        obtain ⟨it2, hfind⟩ := reserve_stock_ok_find hres
        exact ⟨cacheGet_cacheDel _ _, it2, hfind,
          get_item_of_miss (cacheGet_cacheDel _ _) hfind⟩
    · unfold release_stock_handler at h
      split at h
      · exact Except.noConfusion h
      · next db2 hrel =>
        injection h with h2
        subst h2
        obtain ⟨it2, hfind⟩ := release_stock_ok_find hrel
        exact ⟨cacheGet_cacheDel _ _, it2, hfind,
          get_item_of_miss (cacheGet_cacheDel _ _) hfind⟩
    · unfold adjust_stock_handler at h
      split at h
      · exact Except.noConfusion h
      · next db2 it2 hadj =>
        injection h with h2
        have hs2 : ({ db := db2, cache := cacheDel s.cache sku } :
            SysState) = s2 := congrArg Prod.fst h2
        subst hs2
        have hfind := adjust_stock_ok_find hadj
        exact ⟨cacheGet_cacheDel _ _, it2, hfind,
          get_item_of_miss (cacheGet_cacheDel _ _) hfind⟩
  · intro it hhit dbx
    exact get_item_of_hit hhit dbx

def staleItem : InventoryItem :=
  { sku := "SKU-1", name := "Laptop", quantity := 99, reserved := 0,
    warehouse := "JKT-1", low_stock_threshold := 5 }

def sysStale : SysState :=
  { db := dbW, cache := [("SKU-1", staleItem)] }

theorem C7_witness :
    freshReadAfter ⟨[{ itemW with reserved := 3 }], []⟩ "SKU-1" ∧
      get_item sysStale "SKU-1" = .ok (sysStale, staleItem) :=
  ⟨(C7_cache_coherence sysStale ⟨[{ itemW with reserved := 3 }], []⟩
      "SKU-1").1
      (Or.inl ⟨1, { sku := "SKU-1", quantity := 1 }, rfl⟩),
    (C7_cache_coherence sysStale ⟨[{ itemW with reserved := 3 }], []⟩
      "SKU-1").2 staleItem rfl dbW⟩

end Inventory
